import Mathlib

/-!
Verification of the Crazy Clock firmware core (src/base.c, src/lazy.c)
against its natural-language specification.

The C sources are shallowly embedded below.  Machine integers are modelled
as `Nat`/`Int` with explicit reduction modulo powers of two wherever the
hardware or the C semantics truncate:

* the AVR `long` (32-bit two's complement) arithmetic of `q_random` is
  modelled with `wrap32`; `>>` on a `long` is an arithmetic shift, i.e.
  floor division, which is `Int` division `/` (`Int.ediv`) for positive
  powers of two, and `(x << k) & 0x7fffffff` keeps the low 31 bits of the
  shifted two's-complement pattern, i.e. equals `(x * 2^k) % 2^31`
  (with `%` = `Int.emod`, which is non-negative);
* the 8-bit registers (`OCR0A`, `cycle_pos`, `sleep_miss_counter`) reduce
  modulo 256, the 32-bit `unsigned long` accumulator modulo 2^32;
* the 4-byte EEPROM seed cell is a raw pattern `w : Nat`, `w < 2^32`,
  read back as the signed value `toInt32 w`.
-/

set_option maxHeartbeats 1000000
set_option maxRecDepth 10000

namespace CrazyClock

/-! ### Seed Store: `q_random`, `updateSeed` and the startup seed logic -/

/-- The PRNG modulus mask `M = 0x7fffffff` of src/base.c:92. -/
def M : Int := 0x7fffffff

/-- Two's-complement wrap-around of 32-bit signed (`long`) arithmetic:
the representative of `x` modulo `2^32` lying in `[-2^31, 2^31)`. -/
def wrap32 (x : Int) : Int := (x + 2^31) % 2^32 - 2^31

/-- `q_random` of src/base.c:94-98, acting on the current seed and returning
the new seed (the C function stores it back into the global and also returns
it, so new seed and return value coincide):
`seed = (seed >> 16) + ((seed << 15) & M) - (seed >> 21) - ((seed << 10) & M);
 if (seed < 0) seed += M;`
The four shift/mask operands are exact (each fits in 32 bits); the sums and
differences are 32-bit `long` arithmetic, hence the single `wrap32` around
the whole linear combination.  The final `seed += M` cannot overflow. -/
def q_random (s : Int) : Int :=
  let t := wrap32 (s / 65536 + (s * 32768) % 2147483648
                   - s / 2097152 - (s * 1024) % 2147483648)
  if t < 0 then t + M else t

/-- The generator step exactly as the specification words it (§4.3 `next()`):
`seed' = (seed>>16) + ((seed<<15) mod 2^31) − (seed>>21) − ((seed<<10) mod 2^31)`,
"normalized by adding the modulus `2^31−1` if the result is negative".
This definition follows the spec's text (exact integer arithmetic, no 32-bit
wrap) and is to be compared with `q_random`, the embedding of the code. -/
def specNext (s : Int) : Int :=
  let v := s / 2^16 + (s * 2^15) % 2^31 - s / 2^21 - (s * 2^10) % 2^31
  if v < 0 then v + (2^31 - 1) else v

/-- Signed read-back of a raw 32-bit EEPROM pattern (`(long)eeprom_read_dword`). -/
def toInt32 (w : Nat) : Int := if w < 2^31 then (w : Int) else (w : Int) - 2^32

/-- `updateSeed` of src/base.c:100-105: write the seed to EEPROM only when it
differs from the stored value.  Arguments are the current EEPROM value and the
in-memory seed; the result is the EEPROM value afterwards. -/
def updateSeed (stored seed : Int) : Int :=
  if stored = seed then stored else seed

/-- The in-memory seed right after the degenerate-value check of
src/base.c:210-212:
`seed = (long)eeprom_read_dword(EE_PRNG_SEED_LOC);
 if (seed == 0 || ((seed & M) == M)) seed = 0x12345678L;`
For a 32-bit two's-complement value with pattern `w`, `seed & 0x7fffffff`
is the low 31 bits of the pattern, i.e. `w % 2^31`. -/
def initialSeed (w : Nat) : Int :=
  if toInt32 w = 0 ∨ w % 2^31 = 0x7fffffff then 0x12345678 else toInt32 w

/-- The whole seed initialization of `main` (src/base.c:209-214): degenerate
check, one perturbing `q_random()` call, then `updateSeed()`.  Returns the
pair (in-memory seed, EEPROM value) after initialization, for EEPROM
pattern `w` at power-up. -/
def initializeSeed (w : Nat) : Int × Int :=
  let s := q_random (initialSeed w)
  (s, updateSeed (toInt32 w) s)

/-! ### Backlog Accountant: `sleep_miss_counter` produce/consume traces

The ISR (src/base.c:185) does `sleep_miss_counter++` (produce); `doSleep`
(src/base.c:121-126) atomically snapshots and post-decrements the counter
(consume) and enters `sleep_mode()` exactly when the snapshot was zero.
`sleep_miss_counter` is an `unsigned char`, so both operations wrap mod 256.
A trace is the sequence of atomic counter operations, in either context. -/

/-- One atomic operation on the shared backlog counter. -/
inductive BEvent
  | produce
  | consume
deriving DecidableEq

/-- Effect of one atomic operation on the 8-bit counter value. -/
def bstep : Nat → BEvent → Nat
  | b, BEvent.produce => (b + 1) % 256
  | b, BEvent.consume => (b + 255) % 256

/-- Counter value after a trace, starting from the reset value 0. -/
def brun (tr : List BEvent) : Nat := tr.foldl bstep 0

/-- Number of produce (interrupt) operations in a trace. -/
def produced : List BEvent → Nat
  | [] => 0
  | BEvent.produce :: es => produced es + 1
  | BEvent.consume :: es => produced es

/-- Number of consume (`doSleep`) operations in a trace. -/
def consumed : List BEvent → Nat
  | [] => 0
  | BEvent.produce :: es => consumed es
  | BEvent.consume :: es => consumed es + 1

/-- `doSleep`'s branch on its atomic snapshot `local_smc`
(src/base.c:125-126): the call enters `sleep_mode()` iff the snapshot
was zero. -/
def consumeSleeps (snapshot : Nat) : Bool := snapshot == 0

/-! ### Pulse Driver: `doTick` of src/base.c:136-151 -/

/-- Coil pin `P0` (src/base.c:85). -/
def P0 : Nat := 0

/-- Coil pin `P1` (src/base.c:86). -/
def P1 : Nat := 1

/-- `TICK_LENGTH` (src/base.c:137): pulse width in milliseconds. -/
def TICK_LENGTH : Nat := 35

/-- `TICK_PIN` (src/base.c:140): `lastTick == P0 ? P1 : P0`. -/
def tickPin (lastTick : Nat) : Nat := if lastTick = P0 then P1 else P0

/-- The two coil output bits of `PORTB`. -/
structure PulsePort where
  p0 : Bool
  p1 : Bool
deriving DecidableEq

/-- `PORTB |= _BV(pin)`. -/
def setBit (p : PulsePort) (pin : Nat) : PulsePort :=
  ⟨p.p0 || (pin == P0), p.p1 || (pin == P1)⟩

/-- `PORTB &= ~_BV(pin)`. -/
def clearBit (p : PulsePort) (pin : Nat) : PulsePort :=
  ⟨p.p0 && !(pin == P0), p.p1 && !(pin == P1)⟩

/-- Pulse Driver state: the static `lastTick` of `doTick` plus the coil
bits of `PORTB`. -/
structure PulseState where
  lastTick : Nat
  port : PulsePort
deriving DecidableEq

/-- Observable record of one `doTick` call: which pin it drove, how long it
held it (the `_delay_ms(TICK_LENGTH)`), and the port contents during the
hold phase. -/
structure PulseEvent where
  pin : Nat
  holdMs : Nat
  holdPort : PulsePort
deriving DecidableEq

/-- `doTick` of src/base.c:143-151, without its trailing `doSleep()` call
(the tick consumption is modelled in the scheduling-policy section):
`PORTB |= _BV(TICK_PIN); _delay_ms(TICK_LENGTH); PORTB &= ~_BV(TICK_PIN);
 lastTick = TICK_PIN;`
Returns the observable pulse event and the successor state. -/
def doTick (s : PulseState) : PulseEvent × PulseState :=
  let pin := tickPin s.lastTick
  let high := setBit s.port pin
  let low := clearBit high pin
  (⟨pin, TICK_LENGTH, high⟩, ⟨pin, low⟩)

/-- Startup state: `static unsigned char lastTick = P0` (src/base.c:144) and
`PORTB = 0` (src/base.c:207). -/
def pulseInit : PulseState := ⟨P0, ⟨false, false⟩⟩

/-- Pulse Driver state before the k-th `doTick` call (0-indexed). -/
def pulseStateAt (k : Nat) : PulseState := (fun s => (doTick s).2)^[k] pulseInit

/-- Observable event of the k-th `doTick` call (0-indexed). -/
def pulseEventAt (k : Nat) : PulseEvent := (doTick (pulseStateAt k)).1

/-! ### Tick Generator: the fractional divider of `ISR(TIMER0_COMPA_vect)`

4 MHz build (`FOUR_MHZ_CLOCK`), so `CLOCK_CYCLES = 64`,
`CLOCK_BASIC_CYCLE = 48 - 1 = 47`, `CLOCK_NUM_LONG_CYCLES = 53`
(src/base.c:62-66).  `cycle_pos` is an `unsigned char` and `OCR0A` an 8-bit
register, so both wrap mod 256. -/

/-- Divider state: the ISR-static `cycle_pos` and the `OCR0A` compare
register. -/
structure DivState where
  cycle_pos : Nat
  ocr0a : Nat
deriving DecidableEq

/-- One execution of `ISR(TIMER0_COMPA_vect)` (src/base.c:153-186) as
compiled without `SW_TRIM`, i.e. with `offset = 0`:
`if (++cycle_pos == CLOCK_NUM_LONG_CYCLES) OCR0A = CLOCK_BASIC_CYCLE;
 if (cycle_pos >= CLOCK_CYCLES) { OCR0A = CLOCK_BASIC_CYCLE + 1; cycle_pos = 0; }`
(The `sleep_miss_counter++` side effect is the `produce` event of the
Backlog section.) -/
def isrStep (s : DivState) : DivState :=
  let cp := (s.cycle_pos + 1) % 256
  let o1 := if cp = 53 then 47 else s.ocr0a
  if 64 ≤ cp then ⟨0, 48⟩ else ⟨cp, o1⟩

/-- Timer state set up by `main` (src/base.c:219-221): `OCR0A =
CLOCK_BASIC_CYCLE + 1` = 48, and the ISR-static `cycle_pos = 0`. -/
def divInit : DivState := ⟨0, 48⟩

/-- Compare value in effect while waiting for interrupt `k+1` (0-indexed:
`divTrace 0` is the value `main` programmed, in effect for the first
interrupt; `divTrace k` is the value after `k` ISR executions). -/
def divTrace (k : Nat) : Nat := (isrStep^[k] divInit).ocr0a

/-! ### Tick Generator with software trim (`SW_TRIM` build) -/

/-- Divider state of the `SW_TRIM` build: additionally the ISR-static
`unsigned long trim_pos` accumulator (src/base.c:156). -/
structure TrimDivState where
  cycle_pos : Nat
  ocr0a : Nat
  trim_pos : Nat
deriving DecidableEq

/-- One execution of `ISR(TIMER0_COMPA_vect)` as compiled with `SW_TRIM`
(src/base.c:153-186), with `t` the persisted trim word read from EEPROM:
`unsigned long crystal_cycles = OCR0A;
 if (trim_pos < crystal_cycles) { trim_pos += 10000000; offset = eeprom_read_word(EE_TRIM_LOC); }
 trim_pos -= crystal_cycles;`
followed by the divider code with `offset` added to each `OCR0A`
assignment.  `offset` is a function-local `int` initialized to 0 every
interrupt; `unsigned long` arithmetic wraps mod 2^32; the assignment of the
`int` value `47 + offset` (resp. `48 + offset`) to the 8-bit `OCR0A`
register keeps its low 8 bits, i.e. the value mod 256. -/
def isrStepTrim (t : Int) (s : TrimDivState) : TrimDivState :=
  let cc := s.ocr0a
  let fire := s.trim_pos < cc
  let offset : Int := if fire then t else 0
  let tp1 := if fire then (s.trim_pos + 10000000) % 4294967296 else s.trim_pos
  let tp2 := (tp1 + 4294967296 - cc) % 4294967296
  let cp := (s.cycle_pos + 1) % 256
  let o1 := if cp = 53 then ((47 + offset) % 256).toNat else s.ocr0a
  if 64 ≤ cp then ⟨0, ((48 + offset) % 256).toNat, tp2⟩ else ⟨cp, o1, tp2⟩

/-- Startup state of the `SW_TRIM` build: `OCR0A = 48`, `cycle_pos = 0`,
`trim_pos = 0` (static initializer, src/base.c:156). -/
def trimInit : TrimDivState := ⟨0, 48, 0⟩

/-! ### Scheduling Policy: the lazy clock loop of src/lazy.c:30-49

Each iteration draws `tick_count = (random() % 30) + 1` and runs
`for (i = 0; i < tick_count; i++) { doTick(); doSleep(); }` followed by
`for (i = 0; i < tick_count * 8; i++) doSleep();`.
We record the per-iteration stream of primitive effects: `doTick` emits one
coil pulse and then consumes one tick (its trailing `doSleep()` call,
src/base.c:150); `doSleep` consumes one tick. -/

/-- Primitive observable effects of the clock loop. -/
inductive ClockEff
  | pulse
  | consumeTick
deriving DecidableEq

/-- Effects of one `doTick()` call: drive one pulse, then eat one tick
(src/base.c:143-151). -/
def doTickEffects : List ClockEff := [ClockEff.pulse, ClockEff.consumeTick]

/-- Effects of one `doSleep()` call: eat one tick (src/base.c:110-134). -/
def doSleepEffects : List ClockEff := [ClockEff.consumeTick]

/-- Effect stream of one iteration of the lazy loop body (src/lazy.c:39-47),
given the value `r` returned by `random()` (a non-negative `long`):
`tick_count = (r % 30) + 1`, then `tick_count` times (`doTick(); doSleep();`),
then `tick_count * 8` times `doSleep()`. -/
def lazyLoopBody (r : Nat) : List ClockEff :=
  let tick_count := r % 30 + 1
  (List.replicate tick_count (doTickEffects ++ doSleepEffects)).flatten
    ++ (List.replicate (tick_count * 8) doSleepEffects).flatten

/-! ## Seed Store lemmas -/

/-- Every 31-bit seed decomposes as `s = 2097152*q + 65536*r + v`
(`q` = bits 21-30, `r` = bits 16-20, `v` = bits 0-15), and on that
decomposition the linear combination computed by `q_random` before
normalization collapses to `31*q + r + 31744*v - 67108864*r`. -/
lemma seed_decomposition (s : Int) (h0 : 0 ≤ s) (h1 : s < 2^31) :
    ∃ q r v : Int, s = 2097152*q + 65536*r + v
      ∧ 0 ≤ q ∧ q < 1024 ∧ 0 ≤ r ∧ r < 32 ∧ 0 ≤ v ∧ v < 65536
      ∧ s / 65536 + (s * 32768) % 2147483648
          - s / 2097152 - (s * 1024) % 2147483648
        = 31*q + r + 31744*v - 67108864*r := by
  refine ⟨s / 2097152, s / 65536 % 32, s % 65536, ?_⟩
  have hb : (s * 32768) % 2147483648 = (s % 65536) * 32768 := by omega
  have hd : (s * 1024) % 2147483648 = (s % 2097152) * 1024 := by omega
  omega

/-- The only solution of the positive-branch fixed-point equation in range
is the all-zero one (i.e. the seed 0).  The certificate multiplies the
equation by 19186, the inverse of 2083 modulo 31743, which exposes the
divisibility `31743 ∣ q + 1024*r`. -/
lemma fixed_point_pos (q r v : Int) (hq0 : 0 ≤ q) (hq1 : q < 1024)
    (hr0 : 0 ≤ r) (hr1 : r < 32) (hv0 : 0 ≤ v) (hv1 : v < 65536)
    (h : 31743*v = 2097121*q + 67174399*r) : q = 0 ∧ r = 0 ∧ v = 0 := by
  have hc : q + 1024*r = 31743*(19186*v - 1267535*q - 40601330*r) := by linarith
  omega

/-- The only solution of the negative-branch fixed-point equation in range
corresponds to the seed `2^31 - 1`. -/
lemma fixed_point_neg (q r v : Int) (hq0 : 0 ≤ q) (hq1 : q < 1024)
    (hr0 : 0 ≤ r) (hr1 : r < 32) (hv0 : 0 ≤ v) (hv1 : v < 65536)
    (h : 31743*v = 2097121*q + 67174399*r - 2147483647) :
    q = 1023 ∧ r = 31 ∧ v = 65535 := by
  have hc : q + 1024*r - 1024
      = 31743*(19186*v - 1267535*q - 40601330*r + 1297975026) := by linarith
  omega

/-- The pre-normalization value of `q_random` vanishes only at the seeds 0
and `2^31 - 1` (the two degenerate values the startup check filters out). -/
lemma preimage_of_zero (q r v : Int) (hq0 : 0 ≤ q) (hq1 : q < 1024)
    (hr0 : 0 ≤ r) (hr1 : r < 32) (hv0 : 0 ≤ v) (hv1 : v < 65536)
    (h : 31*q + r + 31744*v = 67108864*r) :
    (q = 0 ∧ r = 0 ∧ v = 0) ∨ (q = 1023 ∧ r = 31 ∧ v = 65535) := by
  have hc : r = 31*(q + 1024*v - 2164802*r) := by linarith
  omega

/-- For a seed in `[1, 2^31 - 2]`, one `q_random` step never returns the
seed itself. -/
lemma q_random_ne_self (s : Int) (h0 : 1 ≤ s) (h1 : s ≤ 2^31 - 2) :
    q_random s ≠ s := by
  obtain ⟨q, r, v, hs, hq0, hq1, hr0, hr1, hv0, hv1, hV⟩ :=
    seed_decomposition s (by omega) (by omega)
  unfold q_random wrap32 M
  dsimp only
  rw [hV]
  have hw : (31*q + r + 31744*v - 67108864*r + 2^31) % 2^32 - 2^31
      = 31*q + r + 31744*v - 67108864*r := by omega
  rw [hw]
  split
  · intro hEq
    have h2 : 31743*v = 2097121*q + 67174399*r - 2147483647 := by omega
    have := fixed_point_neg q r v hq0 hq1 hr0 hr1 hv0 hv1 h2
    omega
  · intro hEq
    have h2 : 31743*v = 2097121*q + 67174399*r := by omega
    have := fixed_point_pos q r v hq0 hq1 hr0 hr1 hv0 hv1 h2
    omega

/-- Any seed in `[0, 2^31 - 1]` steps to a seed in `[0, 2^31 - 1]`. -/
lemma q_random_bounded (s : Int) (h0 : 0 ≤ s) (h1 : s ≤ 2^31 - 1) :
    0 ≤ q_random s ∧ q_random s ≤ 2^31 - 1 := by
  obtain ⟨q, r, v, hs, hq0, hq1, hr0, hr1, hv0, hv1, hV⟩ :=
    seed_decomposition s (by omega) (by omega)
  unfold q_random wrap32 M
  dsimp only
  rw [hV]
  have hw : (31*q + r + 31744*v - 67108864*r + 2^31) % 2^32 - 2^31
      = 31*q + r + 31744*v - 67108864*r := by omega
  rw [hw]
  split <;> omega

/-- A non-degenerate seed (in `[1, 2^31 - 2]`) steps to a non-degenerate
seed. -/
lemma q_random_preserves (s : Int) (h0 : 1 ≤ s) (h1 : s ≤ 2^31 - 2) :
    1 ≤ q_random s ∧ q_random s ≤ 2^31 - 2 := by
  obtain ⟨q, r, v, hs, hq0, hq1, hr0, hr1, hv0, hv1, hV⟩ :=
    seed_decomposition s (by omega) (by omega)
  unfold q_random wrap32 M
  dsimp only
  rw [hV]
  have hw : (31*q + r + 31744*v - 67108864*r + 2^31) % 2^32 - 2^31
      = 31*q + r + 31744*v - 67108864*r := by omega
  rw [hw]
  split
  · omega
  · have hne : ¬ 31*q + r + 31744*v - 67108864*r = 0 := by
      intro h2
      have := preimage_of_zero q r v hq0 hq1 hr0 hr1 hv0 hv1 (by omega)
      omega
    omega

/-- A negative 32-bit seed value always steps to a value `≥ -1` (so in
particular `q_random` never returns any seed value below `-1`). -/
lemma q_random_neg_seed (s : Int) (h0 : -2^31 ≤ s) (h1 : s < 2^31) :
    -1 ≤ q_random s := by
  unfold q_random wrap32 M
  dsimp only
  split <;> omega

/-- The startup check triggers on exactly the three 32-bit patterns
`0`, `0x7fffffff` and `0xffffffff`. -/
lemma guard_cases (w : Nat) (hw : w < 2^32) :
    (toInt32 w = 0 ∨ w % 2^31 = 0x7fffffff)
      ↔ (w = 0 ∨ w = 0x7fffffff ∨ w = 0xffffffff) := by
  unfold toInt32
  split <;> omega

/-- Concrete value of one generator step from the replacement constant. -/
lemma q_random_replacement : q_random 0x12345678 = 1507996066 := by decide

/-! ## Seed Store theorems -/

/-- C3: For every current seed value (any value the generator state can
hold, i.e. any 31-bit value), one step of `q_random` returns exactly the
value of the specification's formula
`(seed>>16) + ((seed<<15) mod 2^31) − (seed>>21) − ((seed<<10) mod 2^31)`,
with `2^31 − 1` added once if negative: the 32-bit wrap in the C code never
fires on this domain.  Consequently the whole output sequence (the iterates
of `q_random`) coincides bit-for-bit with the iterates of the spec formula,
i.e. it is the deterministic function of the starting seed the spec
describes. -/
theorem q_random_matches_spec_formula (s : Int) (h0 : 0 ≤ s) (h1 : s < 2^31) :
    q_random s = specNext s ∧ ∀ k : Nat, q_random^[k] s = specNext^[k] s := by
  have step : ∀ x : Int, 0 ≤ x → x < 2^31 → q_random x = specNext x := by
    intro x hx0 hx1
    obtain ⟨q, r, v, hs, hq0, hq1, hr0, hr1, hv0, hv1, hV⟩ :=
      seed_decomposition x hx0 hx1
    unfold q_random specNext wrap32 M
    dsimp only
    rw [hV]
    have hb : (x * 2^15) % 2^31 = (x * 32768) % 2147483648 := by norm_num
    have hd : (x * 2^10) % 2^31 = (x * 1024) % 2147483648 := by norm_num
    rw [hb, hd]
    have hV2 : x / 2^16 + (x * 32768) % 2147483648
        - x / 2^21 - (x * 1024) % 2147483648
        = 31*q + r + 31744*v - 67108864*r := by
      have e1 : x / 2^16 = x / 65536 := by norm_num
      have e2 : x / 2^21 = x / 2097152 := by norm_num
      rw [e1, e2, hV]
    rw [hV2]
    split <;> split <;> omega
  refine ⟨step s h0 h1, ?_⟩
  intro k
  induction k with
  | zero => rfl
  | succ k ih =>
      have hmem : 0 ≤ q_random^[k] s ∧ q_random^[k] s ≤ 2^31 - 1 := by
        clear ih
        induction k with
        | zero => simpa using ⟨h0, by omega⟩
        | succ k ih2 =>
            rw [Function.iterate_succ_apply']
            exact q_random_bounded _ ih2.1 ih2.2
      rw [Function.iterate_succ_apply', Function.iterate_succ_apply', ih]
      rw [ih] at hmem
      exact step _ hmem.1 (by omega)

/-- Witness for C3 at the concrete seed 12345. -/
theorem q_random_matches_spec_formula_witness :
    ((0:Int) ≤ 12345 ∧ (12345:Int) < 2^31) ∧ q_random 12345 = specNext 12345 :=
  ⟨by norm_num, (q_random_matches_spec_formula 12345 (by norm_num) (by norm_num)).1⟩

/-- C5: For every 32-bit pattern the EEPROM can hold at startup, the seed
initialization of `main` advances the generator exactly once from the
checked seed and leaves that new value in the EEPROM (the `updateSeed`
equality test never suppresses the write, because one `q_random` step never
reproduces the read value), so the persisted seed after `initialize()`
always differs from the value read at its start. -/
theorem initialize_always_persists_new_seed (w : Nat) (hw : w < 2^32) :
    (initializeSeed w).2 = q_random (initialSeed w)
      ∧ (initializeSeed w).2 ≠ toInt32 w := by
  have hne : q_random (initialSeed w) ≠ toInt32 w := by
    by_cases hg : toInt32 w = 0 ∨ w % 2^31 = 0x7fffffff
    · have hw3 : w = 0 ∨ w = 0x7fffffff ∨ w = 0xffffffff :=
        (guard_cases w hw).mp hg
      have hrepl : initialSeed w = 0x12345678 := by
        unfold initialSeed
        rw [if_pos hg]
      rw [hrepl, q_random_replacement]
      rcases hw3 with h | h | h <;> subst h <;> decide
    · have hval : initialSeed w = toInt32 w := by
        unfold initialSeed
        rw [if_neg hg]
      rw [hval]
      rcases Nat.lt_or_ge w (2^31) with hlt | hge
      · have hpos : toInt32 w = (w : Int) := by unfold toInt32; rw [if_pos hlt]
        rw [hpos]
        have h1 : 1 ≤ (w : Int) ∧ (w : Int) ≤ 2^31 - 2 := by
          unfold toInt32 at hg
          rw [if_pos hlt] at hg
          push_neg at hg
          omega
        exact q_random_ne_self _ h1.1 h1.2
      · have hneg : toInt32 w = (w : Int) - 2^32 := by
          unfold toInt32
          rw [if_neg (by omega)]
        have hle : toInt32 w ≤ -2 := by
          rw [hneg]
          push_neg at hg
          omega
        have := q_random_neg_seed (toInt32 w) (by rw [hneg]; omega)
          (by rw [hneg]; omega)
        omega
  constructor
  · unfold initializeSeed updateSeed
    dsimp only
    rw [if_neg (fun h => hne h.symm)]
  · unfold initializeSeed updateSeed
    dsimp only
    rw [if_neg (fun h => hne h.symm)]
    exact hne

/-- Witness for C5 at the concrete EEPROM pattern 5. -/
theorem initialize_always_persists_new_seed_witness :
    (5:Nat) < 2^32
      ∧ ((initializeSeed 5).2 = q_random (initialSeed 5)
          ∧ (initializeSeed 5).2 ≠ toInt32 5) :=
  ⟨by norm_num, initialize_always_persists_new_seed 5 (by norm_num)⟩

/-- C7: The seed-state invariant — the in-memory seed is never 0 and never
the degenerate maximal value `2^31 - 1` — is preserved by every `q_random`
step, and established by the startup initialization for every 31-bit
persisted seed value (the domain of the spec's SeedState, including both
degenerate values, which the startup check replaces) as well as for every
all-ones-low-bits pattern such as an erased EEPROM. -/
theorem seed_invariant_preserved :
    (∀ s : Int, 1 ≤ s → s ≤ 2^31 - 2 → 1 ≤ q_random s ∧ q_random s ≤ 2^31 - 2)
      ∧ (∀ w : Nat, w < 2^31 →
          1 ≤ (initializeSeed w).1 ∧ (initializeSeed w).1 ≤ 2^31 - 2)
      ∧ (∀ w : Nat, w % 2^31 = 0x7fffffff →
          1 ≤ (initializeSeed w).1 ∧ (initializeSeed w).1 ≤ 2^31 - 2) := by
  refine ⟨fun s h0 h1 => q_random_preserves s h0 h1, fun w hw => ?_, fun w hw => ?_⟩
  · have hfst : (initializeSeed w).1 = q_random (initialSeed w) := rfl
    have hrange : 1 ≤ initialSeed w ∧ initialSeed w ≤ 2^31 - 2 := by
      unfold initialSeed toInt32
      rw [if_pos hw]
      split
      · norm_num
      · rename_i hg
        push_neg at hg
        have := hg.1
        have := hg.2
        omega
    rw [hfst]
    exact q_random_preserves _ hrange.1 hrange.2
  · have hfst : (initializeSeed w).1 = q_random (initialSeed w) := rfl
    have hrange : initialSeed w = 0x12345678 := by
      unfold initialSeed
      rw [if_pos (Or.inr hw)]
    rw [hfst, hrange]
    exact q_random_preserves _ (by norm_num) (by norm_num)

/-- Witness for C7: preservation at the seed 12345, establishment at the
persisted pattern 0. -/
theorem seed_invariant_preserved_witness :
    (1 ≤ q_random 12345 ∧ q_random 12345 ≤ 2^31 - 2)
      ∧ (1 ≤ (initializeSeed 0).1 ∧ (initializeSeed 0).1 ≤ 2^31 - 2) :=
  ⟨seed_invariant_preserved.1 12345 (by norm_num) (by norm_num),
   seed_invariant_preserved.2.1 0 (by norm_num)⟩

/-- C8: A persisted seed of 0 is replaced by the fixed constant
`0x12345678` before the generator's first use, and likewise for the
generator's maximum representable value `0x7fffffff`; the first generator
use then starts from that constant. -/
theorem degenerate_seed_guard :
    initialSeed 0 = 0x12345678 ∧ initialSeed 0x7fffffff = 0x12345678
      ∧ (initializeSeed 0).1 = q_random 0x12345678
      ∧ (initializeSeed 0x7fffffff).1 = q_random 0x12345678 := by
  refine ⟨by decide, by decide, ?_, ?_⟩ <;> decide

/-- C10: For every 32-bit persisted pattern, the startup check
`seed == 0 || ((seed & M) == M)` triggers exactly on the value 0 and on the
two patterns whose low 31 bits are all ones — `0x7fffffff` and the
erased-EEPROM pattern `0xffffffff`, which reads back as −1 — and every
all-ones-low-bits pattern is replaced by `0x12345678`. -/
theorem guard_catches_all_ones_patterns (w : Nat) (hw : w < 2^32) :
    ((toInt32 w = 0 ∨ w % 2^31 = 0x7fffffff)
        ↔ (w = 0 ∨ w = 0x7fffffff ∨ w = 0xffffffff))
      ∧ (w % 2^31 = 0x7fffffff → initialSeed w = 0x12345678)
      ∧ toInt32 0xffffffff = -1 := by
  refine ⟨guard_cases w hw, fun h => ?_, by decide⟩
  unfold initialSeed
  rw [if_pos (Or.inr h)]

/-! ## Backlog Accountant lemmas -/

/-- Produce counts add over concatenation. -/
lemma produced_append (l1 l2 : List BEvent) :
    produced (l1 ++ l2) = produced l1 + produced l2 := by
  induction l1 with
  | nil => simp [produced]
  | cons e es ih => cases e <;> simp [produced, ih] <;> omega

/-- Consume counts add over concatenation. -/
lemma consumed_append (l1 l2 : List BEvent) :
    consumed (l1 ++ l2) = consumed l1 + consumed l2 := by
  induction l1 with
  | nil => simp [consumed]
  | cons e es ih => cases e <;> simp [consumed, ih] <;> omega

/-- Tracking invariant of the 8-bit counter: starting from the residue of
`P - C` and running a trace in which, at every prefix, total consumes stay
below total produces, the counter remains the residue of the running
produce/consume difference. -/
lemma backlog_track (tr : List BEvent) :
    ∀ P C : Nat,
      (∀ n, n ≤ tr.length → C + consumed (tr.take n) ≤ P + produced (tr.take n)) →
      tr.foldl bstep ((P - C) % 256)
        = ((P + produced tr) - (C + consumed tr)) % 256 := by
  induction tr with
  | nil => intro P C h; simp [produced, consumed]
  | cons e es ih =>
      intro P C h
      have h0 : C ≤ P := by
        have := h 0 (by omega)
        simpa [produced, consumed] using this
      cases e with
      | produce =>
          have hs : bstep ((P - C) % 256) BEvent.produce = ((P + 1) - C) % 256 := by
            simp only [bstep]
            omega
          have h' : ∀ n, n ≤ es.length →
              C + consumed (es.take n) ≤ (P + 1) + produced (es.take n) := by
            intro n hn
            have h2 := h (n + 1) (by simpa using hn)
            rw [List.take_succ_cons] at h2
            simp only [produced, consumed] at h2
            omega
          rw [List.foldl_cons, hs, ih (P + 1) C h']
          simp only [produced, consumed]
          omega
      | consume =>
          have h1 : C + 1 ≤ P := by
            have h2 := h 1 (by simp)
            rw [List.take_succ_cons] at h2
            simp only [produced, consumed, List.take_zero] at h2
            omega
          have hs : bstep ((P - C) % 256) BEvent.consume = (P - (C + 1)) % 256 := by
            simp only [bstep]
            omega
          have h' : ∀ n, n ≤ es.length →
              (C + 1) + consumed (es.take n) ≤ P + produced (es.take n) := by
            intro n hn
            have h2 := h (n + 1) (by simpa using hn)
            rw [List.take_succ_cons] at h2
            simp only [produced, consumed] at h2
            omega
          rw [List.foldl_cons, hs, ih P (C + 1) h']
          simp only [produced, consumed]
          omega

/-- The counter value after a prefix-balanced trace is the residue of the
produce/consume difference. -/
lemma brun_eq_mod (tr : List BEvent)
    (h : ∀ n, n ≤ tr.length → consumed (tr.take n) ≤ produced (tr.take n)) :
    brun tr = (produced tr - consumed tr) % 256 := by
  have h' : ∀ n, n ≤ tr.length →
      0 + consumed (tr.take n) ≤ 0 + produced (tr.take n) := by
    intro n hn
    simpa using h n hn
  have := backlog_track tr 0 0 h'
  simpa [brun] using this

/-! ## Backlog Accountant theorem -/

/-- C4: For every interleaving of produce steps (one ISR execution
increments the counter) and consume steps (one `doSleep` call decrements
it) in which consumes never outnumber produces — at every prefix of the
trace — the stored Backlog counter stays in `[0, 255]` and always equals
the true produce/consume difference mod 256; every consume occurs with the
true backlog strictly positive (it is never decremented below zero); and a
consume sleeps exactly when its atomic snapshot of the counter is zero. -/
theorem backlog_no_underflow (tr : List BEvent)
    (h : ∀ n, n ≤ tr.length → consumed (tr.take n) ≤ produced (tr.take n)) :
    consumed tr ≤ produced tr
      ∧ brun tr < 256
      ∧ brun tr = (produced tr - consumed tr) % 256
      ∧ (∀ n, n < tr.length → tr[n]? = some BEvent.consume →
          consumed (tr.take n) < produced (tr.take n)
            ∧ (consumeSleeps (brun (tr.take n)) = true
                ↔ (produced (tr.take n) - consumed (tr.take n)) % 256 = 0)) := by
  have htot : consumed tr ≤ produced tr := by
    have := h tr.length (by omega)
    simpa using this
  have hmod := brun_eq_mod tr h
  refine ⟨htot, by rw [hmod]; exact Nat.mod_lt _ (by norm_num), hmod, ?_⟩
  intro n hn he
  have htk : ∀ m, m ≤ n → (tr.take n).take m = tr.take m := by
    intro m hm
    rw [List.take_take]
    congr 1
    omega
  have hlen : (tr.take n).length = n := by
    rw [List.length_take]
    omega
  have hpre : ∀ m, m ≤ (tr.take n).length →
      consumed ((tr.take n).take m) ≤ produced ((tr.take n).take m) := by
    intro m hm
    rw [hlen] at hm
    rw [htk m hm]
    exact h m (by omega)
  constructor
  · have hsucc : tr.take (n + 1) = tr.take n ++ [BEvent.consume] := by
      rw [List.take_succ, he]
      rfl
    have := h (n + 1) (by omega)
    rw [hsucc, consumed_append, produced_append] at this
    simp [produced, consumed] at this
    omega
  · rw [brun_eq_mod (tr.take n) hpre]
    unfold consumeSleeps
    simp

/-- Witness for C4 on the concrete trace
produce, consume, produce, produce, consume. -/
theorem backlog_no_underflow_witness :
    (∀ n, n ≤ ([BEvent.produce, BEvent.consume, BEvent.produce,
        BEvent.produce, BEvent.consume]).length →
      consumed (([BEvent.produce, BEvent.consume, BEvent.produce,
        BEvent.produce, BEvent.consume]).take n)
        ≤ produced (([BEvent.produce, BEvent.consume, BEvent.produce,
            BEvent.produce, BEvent.consume]).take n))
    ∧ brun [BEvent.produce, BEvent.consume, BEvent.produce,
        BEvent.produce, BEvent.consume]
      = (produced [BEvent.produce, BEvent.consume, BEvent.produce,
          BEvent.produce, BEvent.consume]
        - consumed [BEvent.produce, BEvent.consume, BEvent.produce,
            BEvent.produce, BEvent.consume]) % 256 :=
  ⟨by decide,
   (backlog_no_underflow [BEvent.produce, BEvent.consume, BEvent.produce,
      BEvent.produce, BEvent.consume] (by decide)).2.2.1⟩

/-! ## Pulse Driver lemmas -/

/-- Closed form of the Pulse Driver state: before the k-th `doTick` the
port is fully low and `lastTick` alternates starting from `P0`. -/
lemma pulseStateAt_closed (k : Nat) :
    pulseStateAt k = ⟨if k % 2 = 0 then P0 else P1, ⟨false, false⟩⟩ := by
  induction k with
  | zero => rfl
  | succ k ih =>
      have hstep : pulseStateAt (k + 1) = (doTick (pulseStateAt k)).2 := by
        unfold pulseStateAt
        rw [Function.iterate_succ_apply']
      rw [hstep, ih]
      rcases Nat.mod_two_eq_zero_or_one k with h | h
      · have h2 : (k + 1) % 2 = 1 := by omega
        rw [h, h2]
        rfl
      · have h2 : (k + 1) % 2 = 0 := by omega
        rw [h, h2]
        rfl

/-! ## Pulse Driver theorem -/

/-- C9: In the sequence of `doTick` calls, no two consecutive calls drive
the same coil pin (strict alternation from the initial `lastTick = P0`
state), every call holds its pin high for the fixed 35 ms pulse width
before driving it low (the port is all-low again at the next call), and
the two coil pins are never energized simultaneously: during the hold
phase exactly the driven pin is high. -/
theorem pulse_strict_alternation (k : Nat) :
    (pulseEventAt k).pin ≠ (pulseEventAt (k + 1)).pin
      ∧ (pulseEventAt k).holdMs = 35
      ∧ ¬((pulseEventAt k).holdPort.p0 = true
            ∧ (pulseEventAt k).holdPort.p1 = true)
      ∧ ((pulseEventAt k).holdPort.p0 = true ∨ (pulseEventAt k).holdPort.p1 = true)
      ∧ (pulseStateAt (k + 1)).port = ⟨false, false⟩ := by
  have hk := pulseStateAt_closed k
  have hk1 := pulseStateAt_closed (k + 1)
  unfold pulseEventAt
  rw [hk, hk1]
  rcases Nat.mod_two_eq_zero_or_one k with h | h
  · have h2 : (k + 1) % 2 = 1 := by omega
    rw [h, h2]
    refine ⟨by decide, by decide, by decide, by decide, by decide⟩
  · have h2 : (k + 1) % 2 = 0 := by omega
    rw [h, h2]
    refine ⟨by decide, by decide, by decide, by decide, by decide⟩

/-! ## Tick Generator (fractional divider) lemmas -/

/-- Closed form of the divider state after `k` interrupts: `cycle_pos`
cycles through 0..63 and the compare register is 48 on positions 0..52 and
47 on positions 53..63. -/
lemma divStateAt (k : Nat) :
    isrStep^[k] divInit = ⟨k % 64, if k % 64 < 53 then 48 else 47⟩ := by
  induction k with
  | zero => rfl
  | succ k ih =>
      rw [Function.iterate_succ_apply', ih]
      unfold isrStep
      dsimp only
      have hk : k % 64 < 64 := Nat.mod_lt _ (by norm_num)
      have h256 : (k % 64 + 1) % 256 = k % 64 + 1 := by omega
      rw [h256]
      rcases Nat.lt_or_ge (k % 64) 63 with hlt | hge
      · rw [if_neg (show ¬ 64 ≤ k % 64 + 1 by omega)]
        have hmod : (k + 1) % 64 = k % 64 + 1 := by omega
        rw [hmod]
        by_cases h53 : k % 64 + 1 = 53
        · rw [if_pos h53]
          simp only [DivState.mk.injEq, true_and]
          rw [if_neg (show ¬ k % 64 + 1 < 53 by omega)]
        · rw [if_neg h53]
          simp only [DivState.mk.injEq, true_and]
          by_cases hlt53 : k % 64 < 53
          · rw [if_pos hlt53, if_pos (show k % 64 + 1 < 53 by omega)]
          · rw [if_neg hlt53, if_neg (show ¬ k % 64 + 1 < 53 by omega)]
      · rw [if_pos (show 64 ≤ k % 64 + 1 by omega)]
        have hmod : (k + 1) % 64 = 0 := by omega
        rw [hmod]
        simp only [DivState.mk.injEq, true_and]
        rw [if_pos (show (0:Nat) < 53 by omega)]

/-- Closed form of the compare value in effect during interrupt `k+1`. -/
lemma divTrace_closed (k : Nat) :
    divTrace k = if k % 64 < 53 then 48 else 47 := by
  unfold divTrace
  rw [divStateAt]

/-! ## Tick Generator theorem -/

/-- C2: In the 4 MHz profile, the compare value in effect is 48 for
interrupts 1–53 of each 64-interrupt cycle and 47 for interrupts 54–64
(`divTrace k` is the value in effect for interrupt `k+1`), and over every
window of 64 consecutive interrupts the elapsed base-clock units — one
interrupt with compare value `c` spans `c + 1` prescaled cycles, since the
CTC timer counts 0..`OCR0A` inclusive — total exactly 3125. -/
theorem divider_window_exact :
    (∀ k, divTrace k = if k % 64 < 53 then 48 else 47)
      ∧ (∀ m, ((List.range 64).map (fun j => divTrace (m + j) + 1)).sum = 3125) := by
  refine ⟨divTrace_closed, ?_⟩
  intro m
  have hfun : (fun j => divTrace (m + j) + 1)
      = fun j => if (m % 64 + j) % 64 < 53 then 49 else 48 := by
    funext j
    rw [divTrace_closed, show (m + j) % 64 = (m % 64 + j) % 64 from by omega]
    split_ifs <;> rfl
  rw [hfun]
  have hall : ∀ a, a < 64 →
      ((List.range 64).map (fun j => if (a + j) % 64 < 53 then 49 else 48)).sum
        = 3125 := by decide
  exact hall (m % 64) (Nat.mod_lt _ (by norm_num))

/-! ## Software-trim theorems -/

/-- C6 counterexample: with persisted trim 5, the very first interrupt
completes a trim quantum (`trim_pos < crystal_cycles` holds, the EEPROM
trim offset is fetched), yet no compare target ever receives the offset:
the compare register still reads 48 after that interrupt, the next two
compare-target writes (interrupts 53 and 64) store the untrimmed values 47
and 48, and over the first 64 interrupts every compare value lies in
{47, 48} — the offset was added to zero divider cycles, not to exactly
one. -/
theorem trim_offset_dropped_example :
    trimInit.trim_pos < trimInit.ocr0a
      ∧ ((isrStepTrim 5)^[1] trimInit).ocr0a = 48
      ∧ ((isrStepTrim 5)^[53] trimInit).ocr0a = 47
      ∧ ((isrStepTrim 5)^[64] trimInit).ocr0a = 48
      ∧ ((List.range 65).all
          (fun k => (((isrStepTrim 5)^[k] trimInit).ocr0a == 47)
            || (((isrStepTrim 5)^[k] trimInit).ocr0a == 48))) = true := by
  refine ⟨by decide, by decide, by decide, by decide, by decide⟩

/-- C6 (amended): an interrupt never writes both compare-target
assignments; when the trim accumulator completes a quantum the persisted
offset is added to at most one compare target — the one written in that
same interrupt, if cycle position 53 or 64 is reached, and to none
otherwise — never split across cycles; and the accumulator rolls over by
gaining 10,000,000 minus the elapsed cycles on a quantum, simply paying
out the elapsed cycles otherwise. -/
theorem trim_offset_at_most_one_target (t : Int) (s : TrimDivState)
    (hcp : s.cycle_pos < 64) (hocr : s.ocr0a < 256)
    (htp : s.trim_pos + 10000000 < 2^32) :
    ¬(s.cycle_pos + 1 = 53 ∧ 64 ≤ s.cycle_pos + 1)
      ∧ (s.trim_pos < s.ocr0a →
          (isrStepTrim t s).trim_pos = s.trim_pos + 10000000 - s.ocr0a)
      ∧ (s.ocr0a ≤ s.trim_pos →
          (isrStepTrim t s).trim_pos = s.trim_pos - s.ocr0a)
      ∧ (s.trim_pos < s.ocr0a → s.cycle_pos + 1 = 53 →
          (isrStepTrim t s).ocr0a = ((47 + t) % 256).toNat)
      ∧ (s.trim_pos < s.ocr0a → s.cycle_pos + 1 = 64 →
          (isrStepTrim t s).ocr0a = ((48 + t) % 256).toNat)
      ∧ (s.trim_pos < s.ocr0a → s.cycle_pos + 1 ≠ 53 → s.cycle_pos + 1 ≠ 64 →
          (isrStepTrim t s).ocr0a = s.ocr0a) := by
  have h256 : (s.cycle_pos + 1) % 256 = s.cycle_pos + 1 := by omega
  unfold isrStepTrim
  dsimp only
  rw [h256]
  refine ⟨by omega, ?_, ?_, ?_, ?_, ?_⟩
  · intro hf
    rw [if_pos hf, if_pos hf]
    split_ifs <;> dsimp only <;> omega
  · intro hf
    rw [if_neg (show ¬ s.trim_pos < s.ocr0a by omega),
      if_neg (show ¬ s.trim_pos < s.ocr0a by omega)]
    split_ifs <;> dsimp only <;> omega
  · intro hf h53
    rw [if_pos hf, if_pos hf, if_neg (by omega : ¬ 64 ≤ s.cycle_pos + 1)]
    dsimp only
    rw [if_pos h53]
  · intro hf h64
    rw [if_pos hf, if_pos hf, if_pos (by omega : 64 ≤ s.cycle_pos + 1)]
  · intro hf h53 h64
    rw [if_pos hf, if_pos hf, if_neg (by omega : ¬ 64 ≤ s.cycle_pos + 1)]
    dsimp only
    rw [if_neg h53]

/-- Witness for C6's amended theorem at trim 5 from the startup state. -/
theorem trim_offset_at_most_one_target_witness :
    (trimInit.cycle_pos < 64 ∧ trimInit.ocr0a < 256
        ∧ trimInit.trim_pos + 10000000 < 2^32)
      ∧ (trimInit.trim_pos < trimInit.ocr0a →
          (isrStepTrim 5 trimInit).trim_pos
            = trimInit.trim_pos + 10000000 - trimInit.ocr0a) :=
  ⟨⟨by decide, by decide, by decide⟩,
   (trim_offset_at_most_one_target 5 trimInit (by decide) (by decide)
      (by decide)).2.1⟩

/-! ## Scheduling Policy lemmas -/

/-- Effect counts over a flattened replication. -/
lemma count_flatten_replicate (n : Nat) (l : List ClockEff) (a : ClockEff) :
    ((List.replicate n l).flatten).count a = n * l.count a := by
  induction n with
  | zero => simp
  | succ n ih =>
      rw [List.replicate_succ, List.flatten_cons, List.count_append, ih]
      ring

/-! ## Scheduling Policy theorems -/

/-- C1 counterexample: on the draw `r = 0` (so `tick_count = 1`) one lazy
loop iteration performs 1 pulse but consumes 10 ticks, not the claimed
`9 * 1`: the first loop's body runs `doTick(); doSleep();`, and `doTick`
itself already consumes one tick, so each pulse costs two ticks before the
`8 * tick_count` pure sleeps. -/
theorem lazy_loop_nine_n_refuted :
    (lazyLoopBody 0).count ClockEff.pulse = 1
      ∧ (lazyLoopBody 0).count ClockEff.consumeTick = 10
      ∧ (lazyLoopBody 0).count ClockEff.consumeTick ≠ 9 * (0 % 30 + 1) := by
  refine ⟨by decide, by decide, by decide⟩

/-- C1 (amended): every lazy loop iteration draws
`tick_count = r % 30 + 1 ∈ [1, 30]` from the `random()` stream, performs
exactly `tick_count` pulses, and consumes `10 * tick_count` ticks in total
— one per pulse inside `doTick`, one more per pulse from the `doSleep`
paired with it in the first loop, and `8 * tick_count` pure sleeps — so
the loop emits exactly one pulse per 10 consumed ticks: at the nominal
10 Hz tick rate, a long-run average of exactly 1 pulse per notional
second. -/
theorem lazy_loop_tick_counts (r : Nat) :
    1 ≤ r % 30 + 1 ∧ r % 30 + 1 ≤ 30
      ∧ (lazyLoopBody r).count ClockEff.pulse = r % 30 + 1
      ∧ (lazyLoopBody r).count ClockEff.consumeTick = 10 * (r % 30 + 1)
      ∧ 10 * (lazyLoopBody r).count ClockEff.pulse
          = (lazyLoopBody r).count ClockEff.consumeTick := by
  unfold lazyLoopBody
  dsimp only
  have h1 : (doTickEffects ++ doSleepEffects).count ClockEff.pulse = 1 := by decide
  have h2 : (doTickEffects ++ doSleepEffects).count ClockEff.consumeTick = 2 := by
    decide
  have h3 : doSleepEffects.count ClockEff.pulse = 0 := by decide
  have h4 : doSleepEffects.count ClockEff.consumeTick = 1 := by decide
  rw [List.count_append, List.count_append, count_flatten_replicate,
    count_flatten_replicate, count_flatten_replicate, count_flatten_replicate,
    h1, h2, h3, h4]
  omega

/-- Witness for C10 at the erased-EEPROM pattern `0xffffffff`. -/
theorem guard_catches_all_ones_patterns_witness :
    (0xffffffff : Nat) < 2^32
      ∧ (((toInt32 0xffffffff = 0 ∨ (0xffffffff : Nat) % 2^31 = 0x7fffffff)
            ↔ ((0xffffffff : Nat) = 0 ∨ (0xffffffff : Nat) = 0x7fffffff
                ∨ (0xffffffff : Nat) = 0xffffffff))
          ∧ ((0xffffffff : Nat) % 2^31 = 0x7fffffff →
              initialSeed 0xffffffff = 0x12345678)
          ∧ toInt32 0xffffffff = -1) :=
  ⟨by norm_num, guard_catches_all_ones_patterns 0xffffffff (by norm_num)⟩

end CrazyClock
